import Mathlib

/-!
Verification of the serial-transport layer of SmartServoFramework
(SerialPortQt backend).  The repository ships only the interface header
`src/SerialPortQt.h`; the implementation file is not part of the sources,
so the components below are modelled from the specification (and from the
header's doc comments), faithful to their words: baud-rate resolution,
the device lock, the link state machine, the timeout policy, the receive
primitive and the port scanner.
-/

namespace SmartServo

/-! ### Baud-rate resolution (BaudRateResolver / SerialPortQt::convertBaudRateFlag) -/

/-- Modelled from the spec: the host's fixed table of standard rate
identifiers.  The Qt serial backend enumerates the standard rates
1200..115200 baud. -/
def standardBauds : List Nat :=
  [1200, 2400, 4800, 9600, 19200, 38400, 57600, 115200]

/-- Modelled from the spec: a candidate standard rate matches the requested
rate when it is exact or within 1.5% of the requested value (relative
error policy).  `1000 * |std - r| <= 15 * r` is exactly `|std - r| <= 0.015 * r`. -/
def withinTolerance (std r : Nat) : Bool :=
  decide (1000 * (std - r) ≤ 15 * r ∧ 1000 * (r - std) ≤ 15 * r)

/-- The outcome of baud-rate resolution: either a standard identifier from
the host table, or the custom-speed marker carrying the exact rate. -/
structure BaudResolution where
  isStandard : Bool
  standardId : Option Nat
  customRate : Option Nat
  deriving DecidableEq, Repr

/-- Modelled from the spec: `SerialPortQt::convertBaudRateFlag` (the
implementation is not in the sources; the header says it tries to match a
baudrate with an existing baudrate flag, or at least one 1.5% close,
and otherwise sets the custom-speed marker).  Searches the fixed table for
a rate within tolerance of the requested value. -/
def convertBaudRateFlag (r : Nat) : BaudResolution :=
  match standardBauds.find? (fun std => withinTolerance std r) with
  | some std => { isStandard := true, standardId := some std, customRate := none }
  | none => { isStandard := false, standardId := none, customRate := some r }

/-- A baud request is either a literal bit rate or a protocol baud index
(a small integer shorthand used by the actuator protocols). -/
inductive BaudRequest where
  | literal (rate : Nat)
  | index (idx : Nat)
  deriving DecidableEq, Repr

/-- Modelled from the spec: the static index-to-rate table of the actuator
protocol convention (rate = 2000000 / (index + 1)). -/
def numericRate : BaudRequest → Nat
  | .literal r => r
  | .index i => 2000000 / (i + 1)

/-- Modelled from the spec: `resolve` first translates a baud index through
the static table, then applies the standard-rate matching procedure. -/
def resolve (req : BaudRequest) : BaudResolution :=
  convertBaudRateFlag (numericRate req)

lemma withinTolerance_bounds {a r : Nat} (h : withinTolerance a r = true) :
    985 * r ≤ 1000 * a ∧ 1000 * a ≤ 1015 * r := by
  have h' := of_decide_eq_true h
  omega

lemma table_separated : ∀ a ∈ standardBauds, ∀ b ∈ standardBauds,
    985 * a ≤ 1015 * b → 985 * b ≤ 1015 * a → a = b := by decide

lemma withinTolerance_unique {a b r : Nat}
    (ha : a ∈ standardBauds) (hb : b ∈ standardBauds)
    (h1 : withinTolerance a r = true) (h2 : withinTolerance b r = true) : a = b := by
  have hA := withinTolerance_bounds h1
  have hB := withinTolerance_bounds h2
  exact table_separated a ha b hb (by omega) (by omega)

/-- Claim C2: for every requested rate `r`, if some standard rate in the host
table matches `r` within 1.5% relative error then `convertBaudRateFlag`
returns that standard identifier with `isStandard = true`; if every standard
rate is out of tolerance it returns `isStandard = false` with `customRate`
equal to `r`. -/
theorem convertBaudRateFlag_tolerance (r : Nat) :
    (∀ std ∈ standardBauds, withinTolerance std r = true →
      convertBaudRateFlag r =
        { isStandard := true, standardId := some std, customRate := none }) ∧
    ((∀ std ∈ standardBauds, withinTolerance std r = false) →
      convertBaudRateFlag r =
        { isStandard := false, standardId := none, customRate := some r }) := by
  constructor
  · intro std hmem htol
    unfold convertBaudRateFlag
    cases hfind : standardBauds.find? (fun std => withinTolerance std r) with
    | none =>
        exact absurd htol (by simpa using List.find?_eq_none.mp hfind std hmem)
    | some x =>
        have hx : withinTolerance x r = true := by simpa using List.find?_some hfind
        have hxmem : x ∈ standardBauds := List.mem_of_find?_eq_some hfind
        have : x = std := withinTolerance_unique hxmem hmem hx htol
        simp [this]
  · intro hall
    unfold convertBaudRateFlag
    have : standardBauds.find? (fun std => withinTolerance std r) = none := by
      apply List.find?_eq_none.mpr
      intro x hx
      simp [hall x hx]
    simp [this]

/-- Claim C2 witness: 57599 is within 1.5% of the standard rate 57600, and
resolution returns the standard identifier 57600. -/
theorem convertBaudRateFlag_tolerance_witness :
    convertBaudRateFlag 57599 =
      { isStandard := true, standardId := some 57600, customRate := none } :=
  (convertBaudRateFlag_tolerance 57599).1 57600 (by decide) (by decide)

/-- Claim C8: baud-rate resolution is a total pure function: for every input
(literal rate or protocol baud index) it produces a usable resolution,
either a standard identifier from the host table or the custom-speed marker
carrying the requested numeric rate; it never fails. -/
theorem resolve_total (req : BaudRequest) :
    ((resolve req).isStandard = true ∧
      ∃ s ∈ standardBauds, (resolve req).standardId = some s) ∨
    ((resolve req).isStandard = false ∧
      (resolve req).customRate = some (numericRate req)) := by
  unfold resolve convertBaudRateFlag
  cases hfind : standardBauds.find? (fun std => withinTolerance std (numericRate req)) with
  | none => right; simp
  | some x =>
      left
      exact ⟨rfl, x, List.mem_of_find?_eq_some hfind, rfl⟩

/-! ### Timeout policy (SerialPortQt::setTimeOut from packet length) -/

/-- Modelled from the spec: `timeoutFor(baud, n)` is the theoretical
transmission time of `n` bytes at `baud` (10 bits per byte on the wire,
in milliseconds) plus a fixed latency margin. -/
def timeoutFor (baud n latency : Nat) : Nat :=
  n * 10 * 1000 / baud + latency

/-- Claim C4: the receive timeout budget is monotonically non-decreasing in
the packet length for every fixed baud rate, and monotonically
non-increasing in the baud rate for every fixed packet length. -/
theorem timeoutFor_monotone (lat baud b1 b2 n m : Nat)
    (hn : n ≤ m) (hb : b1 ≤ b2) (hb1 : 0 < b1) :
    timeoutFor baud n lat ≤ timeoutFor baud m lat ∧
    timeoutFor b2 n lat ≤ timeoutFor b1 n lat := by
  constructor
  · unfold timeoutFor
    have : n * 10 * 1000 ≤ m * 10 * 1000 := by omega
    exact Nat.add_le_add_right (Nat.div_le_div_right this) lat
  · unfold timeoutFor
    exact Nat.add_le_add_right (Nat.div_le_div_left hb hb1) lat

/-- Claim C4 witness: at 5 ms latency, the budget for 4 bytes at 9600 baud
dominates that for 2 bytes, and the budget at 115200 baud is below the one
at 9600 baud. -/
theorem timeoutFor_monotone_witness :
    timeoutFor 9600 2 5 ≤ timeoutFor 9600 4 5 ∧
    timeoutFor 115200 2 5 ≤ timeoutFor 9600 2 5 :=
  timeoutFor_monotone 5 9600 9600 115200 2 4 (by decide) (by decide) (by decide)

/-! ### Device lock (DeviceLock / SerialPortQt::setLock, removeLock) -/

abbrev DevicePath := String

abbrev InstanceId := Nat

/-- The cross-process lock table: which instance holds the advisory lock on
which device path.  This is the state the OS lock-file primitive keeps on
behalf of all instances. -/
abbrev LockState := List (DevicePath × InstanceId)

/-- Modelled from the spec: `isLocked` reports whether some instance holds
the advisory lock for the path. -/
def isLockedIn (s : LockState) (p : DevicePath) : Bool :=
  s.any (fun e => e.1 == p)

/-- Modelled from the spec: whether a particular instance holds the lock
for a path. -/
def ownsLock (s : LockState) (i : InstanceId) (p : DevicePath) : Bool :=
  s.any (fun e => e.1 == p && e.2 == i)

/-- Modelled from the spec: `SerialPortQt::setLock` (implementation not in
the sources; the header says it places a file lock for this serial device,
returning true on success, false when a lock is already held).  The whole
acquire is one atomic step of the OS lock primitive. -/
def setLock (s : LockState) (i : InstanceId) (p : DevicePath) : Bool × LockState :=
  if isLockedIn s p then (false, s) else (true, (p, i) :: s)

/-- Modelled from the spec: `SerialPortQt::removeLock` removes the lock this
instance put on the serial device; releasing a lock one does not hold is a
no-op, never an error. -/
def removeLock (s : LockState) (i : InstanceId) (p : DevicePath) : LockState :=
  s.filter (fun e => !(e.1 == p && e.2 == i))

lemma filter_path_nil (s : LockState) (p : DevicePath)
    (h : isLockedIn s p = false) : s.filter (fun e => e.1 == p) = [] := by
  have h' : ∀ e ∈ s, (e.1 == p) = false := by
    simpa [isLockedIn, List.any_eq_false] using h
  simp only [List.filter_eq_nil_iff]
  intro e he
  simp [h' e he]

lemma removeLock_fresh (s : LockState) (i : InstanceId) (p : DevicePath)
    (h : isLockedIn s p = false) : removeLock ((p, i) :: s) i p = s := by
  have h' : ∀ e ∈ s, (e.1 == p) = false := by
    simpa [isLockedIn, List.any_eq_false] using h
  unfold removeLock
  have hs : s.filter (fun e => !(e.1 == p && e.2 == i)) = s := by
    apply List.filter_eq_self.mpr
    intro e he
    simp [h' e he]
  simp only [List.filter_cons, hs]
  simp only [beq_self_eq_true, Bool.and_self, Bool.not_true, Bool.false_eq_true, if_false]

/-- Claim C1: when two acquisitions for the same free path run (in either
interleaving of the atomic acquire step) from two instances, the first
succeeds, the second fails, and afterwards exactly one live lock entry
exists for the path: both never hold the lock at once. -/
theorem setLock_exclusive (s : LockState) (i j : InstanceId) (p : DevicePath)
    (hfree : isLockedIn s p = false) :
    (setLock s i p).1 = true ∧
    (setLock (setLock s i p).2 j p).1 = false ∧
    ((setLock (setLock s i p).2 j p).2.filter (fun e => e.1 == p)).length = 1 := by
  have hstep : setLock s i p = (true, (p, i) :: s) := by
    simp [setLock, hfree]
  have hlocked : isLockedIn ((p, i) :: s) p = true := by
    simp [isLockedIn]
  refine ⟨by simp [hstep], ?_, ?_⟩
  · rw [hstep]
    simp [setLock, hlocked]
  · rw [hstep]
    simp [setLock, hlocked, List.filter_cons, filter_path_nil s p hfree]

/-- Claim C1 witness: on an empty lock table, instance 0 acquires the lock
for a concrete device path and instance 1 then fails, leaving one entry. -/
theorem setLock_exclusive_witness :
    (setLock [] 0 ("/dev/ttyUSB0")).1 = true ∧
    (setLock (setLock [] 0 ("/dev/ttyUSB0")).2 1 ("/dev/ttyUSB0")).1 = false ∧
    ((setLock (setLock [] 0 ("/dev/ttyUSB0")).2 1
      ("/dev/ttyUSB0")).2.filter (fun e => e.1 == ("/dev/ttyUSB0"))).length = 1 :=
  setLock_exclusive [] 0 1 ("/dev/ttyUSB0") (by decide)

/-! ### The serial link state machine (SerialLink / SerialPortQt) -/

/-- The externally observable link states. -/
inductive LinkState where
  | Closed
  | Open
  deriving DecidableEq, Repr

/-- The fields of one SerialPortQt instance: the immutable device path and
instance identity, the pending requested baud, the link state, the baud
configuration applied to the open connection, and whether the device
handle is open. -/
structure SerialLink where
  devicePath : DevicePath
  instanceId : InstanceId
  baudRequest : Nat
  linkState : LinkState
  activeBaud : Option BaudResolution
  handleOpen : Bool
  deriving DecidableEq, Repr

/-- The world a link operates in: the cross-process lock table, the link
itself, and whether the device has been touched (configured) at all. -/
structure Sys where
  locks : LockState
  link : SerialLink
  deviceTouched : Bool
  deriving DecidableEq, Repr

/-- Result of `openLink`. -/
inductive OpenResult where
  | success
  | lockHeld
  | openFailed
  deriving DecidableEq, Repr

/-- Modelled from the spec: `SerialPortQt::setBaudRate` only records the
requested baud; it must be called before `openLink`, otherwise it has no
effect until the next connection. -/
def setBaudRate (w : Sys) (baud : Nat) : Sys :=
  { w with link := { w.link with baudRequest := baud } }

/-- Modelled from the spec: `SerialPortQt::openLink`.  On an already-open
link it is a no-op returning success.  Otherwise it resolves the baud,
acquires the device lock (failing with LockHeld without touching the
device), then configures the device (`devOk` says whether the OS
configuration succeeds); on configuration failure it releases the
partially acquired lock and stays Closed. -/
def openLink (w : Sys) (devOk : Bool) : OpenResult × Sys :=
  match w.link.linkState with
  | .Open => (.success, w)
  | .Closed =>
    let acq := setLock w.locks w.link.instanceId w.link.devicePath
    if acq.1 then
      if devOk then
        (.success,
         { w with
             locks := acq.2
             link := { w.link with
                         linkState := .Open
                         activeBaud := some (convertBaudRateFlag w.link.baudRequest)
                         handleOpen := true }
             deviceTouched := true })
      else
        (.openFailed,
         { w with
             locks := removeLock acq.2 w.link.instanceId w.link.devicePath
             deviceTouched := true })
    else
      (.lockHeld, w)

/-- Modelled from the spec: first step of teardown, releasing the device
handle (and with it the active configuration). -/
def releaseHandle (w : Sys) : Sys :=
  { w with link := { w.link with handleOpen := false, activeBaud := none } }

/-- Modelled from the spec: second step of teardown, releasing this
instance's device lock. -/
def releaseLock (w : Sys) : Sys :=
  { w with locks := removeLock w.locks w.link.instanceId w.link.devicePath }

/-- Marking the link Closed, the last step of teardown. -/
def markClosed (w : Sys) : Sys :=
  { w with link := { w.link with linkState := .Closed } }

/-- Modelled from the spec: `SerialPortQt::closeLink` releases the device
handle first and the device lock second, then transitions to Closed; on a
Closed link it is a no-op, and it never reports an error (its result is
only the new state). -/
def closeLink (w : Sys) : Sys :=
  match w.link.linkState with
  | .Closed => w
  | .Open => markClosed (releaseLock (releaseHandle w))

lemma ownsLock_removeLock (s : LockState) (i : InstanceId) (p : DevicePath) :
    ownsLock (removeLock s i p) i p = false := by
  simp only [ownsLock, removeLock, List.any_eq_false]
  intro e he hp
  rw [List.mem_filter] at he
  have h2 := he.2
  rw [hp] at h2
  simp at h2

lemma closeLink_linkState (v : Sys) : (closeLink v).link.linkState = LinkState.Closed := by
  unfold closeLink
  cases hv : v.link.linkState with
  | Closed => exact hv
  | Open => simp [markClosed, releaseLock, releaseHandle]

lemma closeLink_of_closed (v : Sys) (hv : v.link.linkState = LinkState.Closed) :
    closeLink v = v := by
  unfold closeLink
  rw [hv]

/-- Claim C3: on a Closed link, when `openLink` fails for any reason, the
link is still Closed on return, the lock table is exactly as before the
call (any partially acquired lock has been released), and on a LockHeld
failure the whole world is untouched (in particular the device). -/
theorem openLink_failure_cleanup (w : Sys) (devOk : Bool)
    (hclosed : w.link.linkState = LinkState.Closed)
    (hfail : (openLink w devOk).1 ≠ OpenResult.success) :
    (openLink w devOk).2.link.linkState = LinkState.Closed ∧
    (openLink w devOk).2.locks = w.locks ∧
    ((openLink w devOk).1 = OpenResult.lockHeld → (openLink w devOk).2 = w) := by
  cases hl : isLockedIn w.locks w.link.devicePath with
  | true =>
      refine ⟨?_, ?_, ?_⟩ <;>
        · unfold openLink
          rw [hclosed]
          simp [setLock, hl, hclosed]
  | false =>
      cases devOk with
      | true =>
          exfalso
          apply hfail
          unfold openLink
          rw [hclosed]
          simp [setLock, hl]
      | false =>
          refine ⟨?_, ?_, ?_⟩ <;>
            · unfold openLink
              rw [hclosed]
              simp [setLock, hl, hclosed,
                removeLock_fresh w.locks w.link.instanceId w.link.devicePath hl]

/-- Claim C6: `openLink` on an already-Open link is a no-op returning
success and leaving the whole state unchanged, and `closeLink` on a Closed
link is a no-op. -/
theorem openLink_closeLink_noop (w : Sys) (devOk : Bool) :
    (w.link.linkState = LinkState.Open →
      (openLink w devOk).1 = OpenResult.success ∧ (openLink w devOk).2 = w) ∧
    (w.link.linkState = LinkState.Closed → closeLink w = w) := by
  constructor
  · intro h
    unfold openLink
    rw [h]
    exact ⟨rfl, rfl⟩
  · exact closeLink_of_closed w

/-- Claim C7: `closeLink` is idempotent (safe to call any number of times,
also from a failure path), and on an Open link it is exactly the
composition release-handle-first, release-lock-second, then mark Closed;
afterwards the link is Closed, the handle is gone and this instance no
longer holds the device lock.  It returns only the new state, never an
error. -/
theorem closeLink_release_order (w : Sys) :
    closeLink (closeLink w) = closeLink w ∧
    (w.link.linkState = LinkState.Open →
      closeLink w = markClosed (releaseLock (releaseHandle w)) ∧
      (closeLink w).link.linkState = LinkState.Closed ∧
      (closeLink w).link.handleOpen = false ∧
      ownsLock (closeLink w).locks w.link.instanceId w.link.devicePath = false) := by
  constructor
  · exact closeLink_of_closed (closeLink w) (closeLink_linkState w)
  · intro h
    have hstep : closeLink w = markClosed (releaseLock (releaseHandle w)) := by
      unfold closeLink
      rw [h]
    refine ⟨hstep, closeLink_linkState w, ?_, ?_⟩
    · rw [hstep]
      simp [markClosed, releaseLock, releaseHandle]
    · rw [hstep]
      simp only [markClosed, releaseLock, releaseHandle]
      exact ownsLock_removeLock w.locks w.link.instanceId w.link.devicePath

lemma openLink_success_activeBaud (v : Sys) (devOk : Bool)
    (hc : v.link.linkState = LinkState.Closed)
    (hs : (openLink v devOk).1 = OpenResult.success) :
    (openLink v devOk).2.link.activeBaud =
      some (convertBaudRateFlag v.link.baudRequest) := by
  cases hl : isLockedIn v.locks v.link.devicePath with
  | true =>
      exfalso
      unfold openLink at hs
      rw [hc] at hs
      simp [setLock, hl] at hs
  | false =>
      cases devOk with
      | true =>
          unfold openLink
          rw [hc]
          simp [setLock, hl]
      | false =>
          exfalso
          unfold openLink at hs
          rw [hc] at hs
          simp [setLock, hl] at hs

/-- Claim C10: on an Open link, `setBaudRate` changes nothing about the open
connection — active baud configuration, link state, device handle, lock
table and device path are all untouched; the newly set value takes effect
only at the next `openLink` after the link is closed, which then applies
exactly the resolution of the new value. -/
theorem setBaudRate_frame (w : Sys) (b : Nat) (devOk : Bool)
    (h : w.link.linkState = LinkState.Open) :
    (setBaudRate w b).link.activeBaud = w.link.activeBaud ∧
    (setBaudRate w b).link.linkState = LinkState.Open ∧
    (setBaudRate w b).link.handleOpen = w.link.handleOpen ∧
    (setBaudRate w b).locks = w.locks ∧
    (setBaudRate w b).link.devicePath = w.link.devicePath ∧
    ((openLink (closeLink (setBaudRate w b)) devOk).1 = OpenResult.success →
      (openLink (closeLink (setBaudRate w b)) devOk).2.link.activeBaud =
        some (convertBaudRateFlag b)) := by
  refine ⟨rfl, by simp [setBaudRate, h], rfl, rfl, rfl, ?_⟩
  intro hs
  have hb : (closeLink (setBaudRate w b)).link.baudRequest = b := by
    unfold closeLink
    have : (setBaudRate w b).link.linkState = LinkState.Open := by simp [setBaudRate, h]
    rw [this]
    simp [markClosed, releaseLock, releaseHandle, setBaudRate]
  have := openLink_success_activeBaud (closeLink (setBaudRate w b)) devOk
    (closeLink_linkState (setBaudRate w b)) hs
  rw [this, hb]

/-! ### The receive primitive (SerialPortQt::rx) -/

/-- Modelled from the spec: `SerialPortQt::rx` under an abstract device,
described by `producedBy t`, the number of bytes the device has delivered
by time `t` (milliseconds).  The read returns as soon as the requested `n`
bytes are available, and otherwise returns whatever arrived when the
timeout budget elapses; the result is the byte count and the return time. -/
def rxModel (producedBy : Nat → Nat) (n budget : Nat) : Nat × Nat :=
  match (List.range (budget + 1)).find? (fun t => decide (n ≤ producedBy t)) with
  | some t => (n, t)
  | none => (producedBy budget, budget)

/-- Claim C5: for every device behaviour (monotone delivery), requested
length `n` and budget, `rx` returns `min n available` bytes — a partial
result is a normal count, never an error — the count never exceeds `n`,
and the call returns no later than the timeout budget. -/
theorem rx_partial_bounded (producedBy : Nat → Nat) (n budget : Nat)
    (hmono : ∀ a b, a ≤ b → producedBy a ≤ producedBy b) :
    (rxModel producedBy n budget).1 = min n (producedBy budget) ∧
    (rxModel producedBy n budget).1 ≤ n ∧
    (rxModel producedBy n budget).2 ≤ budget := by
  unfold rxModel
  cases hf : (List.range (budget + 1)).find? (fun t => decide (n ≤ producedBy t)) with
  | some t =>
      have ht : n ≤ producedBy t := by simpa using List.find?_some hf
      have htb : t ≤ budget := by
        have := List.mem_of_find?_eq_some hf
        simpa [List.mem_range, Nat.lt_succ_iff] using this
      have hnb : n ≤ producedBy budget := le_trans ht (hmono t budget htb)
      simp [Nat.min_eq_left hnb, htb]
  | none =>
      have hbud : ¬(n ≤ producedBy budget) := by
        have := List.find?_eq_none.mp hf budget (by simp [List.mem_range])
        simpa using this
      have hle : producedBy budget ≤ n := le_of_not_le hbud
      simp [Nat.min_eq_right hle, hle]

/-- Claim C5 witness: a device delivering only 2 bytes within a 10 ms
budget makes `rx` of 4 requested bytes return the partial count 2 by the
deadline. -/
theorem rx_partial_bounded_witness :
    (rxModel (fun _ => 2) 4 10).1 = min 4 2 ∧
    (rxModel (fun _ => 2) 4 10).1 ≤ 4 ∧
    (rxModel (fun _ => 2) 4 10).2 ≤ 10 :=
  rx_partial_bounded (fun _ => 2) 4 10 (fun _ _ _ => Nat.le_refl 2)

/-! ### The port scanner (serialPortsScannerQt) -/

/-- The three naming families of serial device nodes on the host: the two
adapter families (USB-serial `ttyUSB*` and ACM-style `ttyACM*`) and the
always-resident native family (`ttyS*`). -/
inductive TtyFamily where
  | usb
  | acm
  | native
  deriving DecidableEq, Repr

/-- One serial device node on the host, by naming family and number. -/
structure DeviceNode where
  family : TtyFamily
  idx : Nat
  deriving DecidableEq, Repr

/-- Modelled from the spec: `serialPortsScannerQt` (the header says it scans
for ttyUSB and ttyACM ports, and that native ttyS devices are not scanned
as they are always considered valid even with no adapter attached).  Given
the host's device nodes it keeps the two adapter families and reports the
count separately as the return value. -/
def serialPortsScannerQt (hostNodes : List DeviceNode) : Nat × List DeviceNode :=
  let found := hostNodes.filter
    (fun d => d.family == TtyFamily.usb || d.family == TtyFamily.acm)
  (found.length, found)

/-- Claim C9: the scanner returns only nodes of the two adapter families
and never a native serial node; the reported count equals the number of
nodes returned; and when every host node is native it returns the empty
sequence rather than an error. -/
theorem serialPortsScannerQt_filters (hostNodes : List DeviceNode) :
    (∀ d ∈ (serialPortsScannerQt hostNodes).2,
      d.family = TtyFamily.usb ∨ d.family = TtyFamily.acm) ∧
    (∀ d ∈ (serialPortsScannerQt hostNodes).2, d.family ≠ TtyFamily.native) ∧
    (serialPortsScannerQt hostNodes).1 = (serialPortsScannerQt hostNodes).2.length ∧
    ((∀ d ∈ hostNodes, d.family = TtyFamily.native) →
      (serialPortsScannerQt hostNodes).2 = []) := by
  have hmem : ∀ d ∈ (serialPortsScannerQt hostNodes).2,
      d.family = TtyFamily.usb ∨ d.family = TtyFamily.acm := by
    intro d hd
    rw [serialPortsScannerQt, List.mem_filter] at hd
    have := hd.2
    cases hfam : d.family <;> simp_all
  refine ⟨hmem, ?_, rfl, ?_⟩
  · intro d hd
    rcases hmem d hd with h | h <;> simp [h]
  · intro hall
    rw [serialPortsScannerQt]
    apply List.filter_eq_nil_iff.mpr
    intro d hd
    simp [hall d hd]

/-! ### Concrete states used by the witnesses -/

/-- A link bound to a concrete device path, still Closed. -/
def demoClosedLink : SerialLink where
  devicePath := "/dev/ttyUSB0"
  instanceId := 0
  baudRequest := 57600
  linkState := LinkState.Closed
  activeBaud := none
  handleOpen := false

/-- A world where another instance (id 1) already holds the lock on the
device path of our Closed link. -/
def sysBlocked : Sys where
  locks := [("/dev/ttyUSB0", 1)]
  link := demoClosedLink
  deviceTouched := false

/-- A world where our link (instance 0) is Open, holding lock and handle. -/
def sysOpen : Sys where
  locks := [("/dev/ttyUSB0", 0)]
  link := { demoClosedLink with
              linkState := LinkState.Open
              activeBaud := some (convertBaudRateFlag 57600)
              handleOpen := true }
  deviceTouched := true

/-- A world where our link is Closed and no lock is held. -/
def sysClosedFree : Sys where
  locks := []
  link := demoClosedLink
  deviceTouched := false

/-- Claim C3 witness: opening on a path whose lock is held by another
instance fails, the link stays Closed, the lock table is unchanged and the
world is untouched. -/
theorem openLink_failure_cleanup_witness :
    (openLink sysBlocked true).2.link.linkState = LinkState.Closed ∧
    (openLink sysBlocked true).2.locks = sysBlocked.locks ∧
    ((openLink sysBlocked true).1 = OpenResult.lockHeld →
      (openLink sysBlocked true).2 = sysBlocked) :=
  openLink_failure_cleanup sysBlocked true (by decide) (by decide)

/-- Claim C6 witness: `openLink` on a concrete Open world is a successful
no-op, and `closeLink` on a concrete Closed world is a no-op. -/
theorem openLink_closeLink_noop_witness :
    ((openLink sysOpen true).1 = OpenResult.success ∧
      (openLink sysOpen true).2 = sysOpen) ∧
    closeLink sysClosedFree = sysClosedFree :=
  ⟨(openLink_closeLink_noop sysOpen true).1 (by decide),
   (openLink_closeLink_noop sysClosedFree true).2 (by decide)⟩

/-- Claim C7 witness: closing the concrete Open world twice equals closing
it once, the close is the handle-then-lock teardown, and afterwards the
handle is gone and instance 0 no longer holds the lock. -/
theorem closeLink_release_order_witness :
    closeLink (closeLink sysOpen) = closeLink sysOpen ∧
    (closeLink sysOpen = markClosed (releaseLock (releaseHandle sysOpen)) ∧
      (closeLink sysOpen).link.linkState = LinkState.Closed ∧
      (closeLink sysOpen).link.handleOpen = false ∧
      ownsLock (closeLink sysOpen).locks sysOpen.link.instanceId
        sysOpen.link.devicePath = false) :=
  ⟨(closeLink_release_order sysOpen).1,
   (closeLink_release_order sysOpen).2 (by decide)⟩

/-- Claim C10 witness: on the concrete Open world, setting 115200 baud
leaves the active configuration untouched, and after a close the next
successful open applies the resolution of 115200. -/
theorem setBaudRate_frame_witness :
    (setBaudRate sysOpen 115200).link.activeBaud = sysOpen.link.activeBaud ∧
    (openLink (closeLink (setBaudRate sysOpen 115200)) true).2.link.activeBaud =
      some (convertBaudRateFlag 115200) :=
  ⟨(setBaudRate_frame sysOpen 115200 true (by decide)).1,
   (setBaudRate_frame sysOpen 115200 true (by decide)).2.2.2.2.2 (by decide)⟩

/-- Claim C9 witness: a host exposing only native serial nodes yields an
empty scan result. -/
theorem serialPortsScannerQt_filters_witness :
    (serialPortsScannerQt
      [DeviceNode.mk TtyFamily.native 0, DeviceNode.mk TtyFamily.native 1]).2 = [] :=
  (serialPortsScannerQt_filters
    [DeviceNode.mk TtyFamily.native 0, DeviceNode.mk TtyFamily.native 1]).2.2.2
    (by decide)

end SmartServo
